import Mathlib

/-!
Shallow embedding of the `logical` digital-network simulator (Rust) for
verification of its specification claims.

Source files embedded:
  * `src/logicbit/tvlogic.rs` / `src/logicbit/ieee1164.rs` — the 9-valued
    scalar type `Ieee1164` and its `resolve` truth table.
  * `src/logicbit/logicvector/masks.rs` and `src/logicbit/logicvector/mod.rs`
    — the bit-packed `LogicVector` (9 parallel 128-bit masks).
  * `src/signal.rs` — `Signal::update` (prune expired connectors, fold the
    live inputs through `resolve`, write the result to live outputs).
  * `src/circuit.rs` — `Circuit::tick` folding the change reports of its
    registered updaters.

Machine integers (`u128`, `u8`) are modelled as `Nat` with explicit masking
by `2 ^ 128` where the source relies on the fixed word size; fallible or
panicking operations are modelled with `Option` / `Except`.
-/

namespace Logical

/-- Model of `Ieee1164Value` from `src/logicbit/tvlogic.rs`: three-valued logic payload
of the strong/weak drive constructors. -/
inductive Ieee1164Value where
  | Zero
  | One
  | Unknown
deriving DecidableEq, Fintype

/-- Model of `Ieee1164` from `src/logicbit/ieee1164.rs`: the 9-state scalar logic
type (`U, X, 0, 1, Z, W, L, H, -`). -/
inductive Ieee1164 where
  | Uninitialized
  | Strong (v : Ieee1164Value)
  | Weak (v : Ieee1164Value)
  | HighImpedance
  | DontCare
deriving DecidableEq, Fintype

/-- Associated constant `Ieee1164::_U`. -/
def iU : Ieee1164 := Ieee1164.Uninitialized
/-- Associated constant `Ieee1164::_X` (`Strong(Unknown)`). -/
def iX : Ieee1164 := Ieee1164.Strong Ieee1164Value.Unknown
/-- Associated constant `Ieee1164::_0` (`Strong(Zero)`). -/
def i0 : Ieee1164 := Ieee1164.Strong Ieee1164Value.Zero
/-- Associated constant `Ieee1164::_1` (`Strong(One)`). -/
def i1 : Ieee1164 := Ieee1164.Strong Ieee1164Value.One
/-- Associated constant `Ieee1164::_Z` (`HighImpedance`). -/
def iZ : Ieee1164 := Ieee1164.HighImpedance
/-- Associated constant `Ieee1164::_W` (`Weak(Unknown)`). -/
def iW : Ieee1164 := Ieee1164.Weak Ieee1164Value.Unknown
/-- Associated constant `Ieee1164::_L` (`Weak(Zero)`). -/
def iL : Ieee1164 := Ieee1164.Weak Ieee1164Value.Zero
/-- Associated constant `Ieee1164::_H` (`Weak(One)`). -/
def iH : Ieee1164 := Ieee1164.Weak Ieee1164Value.One
/-- Associated constant `Ieee1164::_D` (`DontCare`). -/
def iD : Ieee1164 := Ieee1164.DontCare

/-- Model of `Ieee1164::to_index` from `src/logicbit/ieee1164.rs`: the fixed per-state
ordinal used to index the 9x9 truth tables. -/
def Ieee1164.toIndex : Ieee1164 → Nat
  | Ieee1164.Uninitialized => 0
  | Ieee1164.Strong Ieee1164Value.Unknown => 1
  | Ieee1164.Strong Ieee1164Value.Zero => 2
  | Ieee1164.Strong Ieee1164Value.One => 3
  | Ieee1164.HighImpedance => 4
  | Ieee1164.Weak Ieee1164Value.Unknown => 5
  | Ieee1164.Weak Ieee1164Value.Zero => 6
  | Ieee1164.Weak Ieee1164Value.One => 7
  | Ieee1164.DontCare => 8

/-- The `TTABLE` constant of `fn resolve` in `src/logicbit/ieee1164.rs`,
row-major (row = left operand index, column = right operand index). -/
def resolveTable : List (List Ieee1164) :=
  [ [iU, iU, iU, iU, iU, iU, iU, iU, iU]
  , [iU, iX, iX, iX, iX, iX, iX, iX, iX]
  , [iU, iX, i0, iX, i0, i0, i0, i0, iX]
  , [iU, iX, iX, i1, i1, i1, i1, i1, iX]
  , [iU, iX, i0, i1, iZ, iW, iL, iH, iX]
  , [iU, iX, i0, i1, iW, iW, iW, iW, iX]
  , [iU, iX, i0, i1, iL, iW, iL, iW, iX]
  , [iU, iX, i0, i1, iH, iW, iW, iH, iX]
  , [iU, iX, iX, iX, iX, iX, iX, iX, iX] ]

/-- Model of `fn resolve` from `src/logicbit/ieee1164.rs`: table lookup by the two
operand ordinals (the out-of-range defaults are never reached since
`toIndex < 9`). -/
def resolve (a b : Ieee1164) : Ieee1164 :=
  (resolveTable.getD a.toIndex []).getD b.toIndex iU

/-- Maximum value of a `u128`, used where the source writes `std::u128::MAX`. -/
def u128MAX : Nat := 2 ^ 128 - 1

/-- Bitwise complement of a `u128` value (`!value` in the source). -/
def u128Not (v : Nat) : Nat := Nat.xor v u128MAX

/-- Model of `fn mask_from_width` from `src/logicbit/logicvector/mod.rs`:
`(1 << width) - 1`, with the `width == 128` case special-cased in the source
only to avoid the 128-bit shift overflow. -/
def maskFromWidth (width : Nat) : Nat :=
  if width ≠ 128 then 2 ^ width - 1 else u128MAX

/-- Model of `fn assert_width` from `src/logicbit/logicvector/mod.rs`:
`width != 0 && width <= 128`. -/
def assertWidth (width : Nat) : Prop := width ≠ 0 ∧ width ≤ 128

instance (width : Nat) : Decidable (assertWidth width) := by
  unfold assertWidth; infer_instance

/-- Model of `SanityChecked` from `src/logicbit/logicvector/masks.rs`: the error cases
of the mask sanity check. -/
inductive SanityChecked where
  | MoreThanOne (d : Nat)
  | NoOne (d : Nat)
  | OneAboveWidth (d : Nat)
deriving DecidableEq

/-- Model of `Masks` from `src/logicbit/logicvector/masks.rs`: nine parallel 128-bit
bitmasks, one per `Ieee1164` state, in the source's field order. -/
structure Masks where
  mU : Nat
  mX : Nat
  m1 : Nat
  m0 : Nat
  mW : Nat
  mH : Nat
  mL : Nat
  mZ : Nat
  mD : Nat
deriving DecidableEq

/-- Model of `Masks::default()`: all nine masks zero. -/
def Masks.zeroed : Masks := ⟨0, 0, 0, 0, 0, 0, 0, 0, 0⟩

/-- The `Index<Ieee1164>` impl for `Masks`. -/
def Masks.get (m : Masks) : Ieee1164 → Nat
  | Ieee1164.Uninitialized => m.mU
  | Ieee1164.Strong Ieee1164Value.Unknown => m.mX
  | Ieee1164.Strong Ieee1164Value.One => m.m1
  | Ieee1164.Strong Ieee1164Value.Zero => m.m0
  | Ieee1164.Weak Ieee1164Value.Unknown => m.mW
  | Ieee1164.Weak Ieee1164Value.One => m.mH
  | Ieee1164.Weak Ieee1164Value.Zero => m.mL
  | Ieee1164.HighImpedance => m.mZ
  | Ieee1164.DontCare => m.mD

/-- The `IndexMut<Ieee1164>` impl for `Masks`, as a functional update. -/
def Masks.put (m : Masks) (key : Ieee1164) (n : Nat) : Masks :=
  match key with
  | Ieee1164.Uninitialized => { m with mU := n }
  | Ieee1164.Strong Ieee1164Value.Unknown => { m with mX := n }
  | Ieee1164.Strong Ieee1164Value.One => { m with m1 := n }
  | Ieee1164.Strong Ieee1164Value.Zero => { m with m0 := n }
  | Ieee1164.Weak Ieee1164Value.Unknown => { m with mW := n }
  | Ieee1164.Weak Ieee1164Value.One => { m with mH := n }
  | Ieee1164.Weak Ieee1164Value.Zero => { m with mL := n }
  | Ieee1164.HighImpedance => { m with mZ := n }
  | Ieee1164.DontCare => { m with mD := n }

/-- The iteration order of `Masks::iter` / `Masks::iter_mut`
(`U, X, 1, 0, W, H, L, Z, D`). -/
def maskOrder : List Ieee1164 := [iU, iX, i1, i0, iW, iH, iL, iZ, iD]

/-- Model of `Masks::get(index)` from `src/logicbit/logicvector/masks.rs`: the first
mask in iteration order with bit `index` set; the source panics when no mask
has the bit set, modelled as `none`. -/
def Masks.getBit (m : Masks) (index : Nat) : Option Ieee1164 :=
  maskOrder.find? fun v => (m.get v >>> index) &&& 1 = 1

/-- Model of `Masks::set(index, value)` from `src/logicbit/logicvector/masks.rs`:
sets bit `index` in the mask of `value` and clears it in every other mask. -/
def Masks.setBit (m : Masks) (index : Nat) (value : Ieee1164) : Masks :=
  maskOrder.foldl
    (fun acc key =>
      if key = value then acc.put key (acc.get key ||| (1 <<< index))
      else acc.put key (acc.get key &&& u128Not (1 <<< index)))
    m

/-- Inner loop of `Masks::sanity_check`: scan the nine masks at bit `d`,
reporting `MoreThanOne` / `OneAboveWidth`, else whether some mask had the
bit set. -/
def sanityInner (m : Masks) (width d : Nat) :
    List Ieee1164 → Bool → Except SanityChecked Bool
  | [], hasOne => Except.ok hasOne
  | v :: rest, hasOne =>
    if (m.get v >>> d) &&& 1 = 1 then
      if hasOne then Except.error (SanityChecked.MoreThanOne d)
      else if d > width then Except.error (SanityChecked.OneAboveWidth d)
      else sanityInner m width d rest true
    else sanityInner m width d rest hasOne

/-- Outer loop of `Masks::sanity_check` over the bit positions `0..128`. -/
def sanityLoop (m : Masks) (width : Nat) : List Nat → Except SanityChecked Unit
  | [] => Except.ok ()
  | d :: ds =>
    match sanityInner m width d maskOrder false with
    | Except.error e => Except.error e
    | Except.ok hasOne =>
      if d < width ∧ ¬hasOne then Except.error (SanityChecked.NoOne d)
      else sanityLoop m width ds

/-- Model of `Masks::sanity_check` from `src/logicbit/logicvector/masks.rs`. -/
def Masks.sanityCheck (m : Masks) (width : Nat) : Except SanityChecked Unit :=
  sanityLoop m width (List.range 128)

instance {ε α : Type} [DecidableEq ε] [DecidableEq α] : DecidableEq (Except ε α)
  | Except.ok a, Except.ok b => decidable_of_iff (a = b) (by simp)
  | Except.ok _, Except.error _ => isFalse (fun h => Except.noConfusion h)
  | Except.error _, Except.ok _ => isFalse (fun h => Except.noConfusion h)
  | Except.error a, Except.error b => decidable_of_iff (a = b) (by simp)

/-- Model of `LogicVector` from `src/logicbit/logicvector/mod.rs`: the bit-packed
masks plus the width (a `u8` in the source). -/
structure LogicVector where
  masks : Masks
  width : Nat
deriving DecidableEq

/-- Model of `LogicVector::from_ieee_value`: every in-range bit set to `value`; the
width assertion is modelled as `Option`. -/
def fromIeeeValue (value : Ieee1164) (width : Nat) : Option LogicVector :=
  if assertWidth width then
    some ⟨Masks.zeroed.put value (u128MAX &&& maskFromWidth width), width⟩
  else none

/-- Fuelled bit length of a `Nat` (`128 - leading_zeros` for a `u128`):
`bitLenAux 128 v` is the number of significant bits of `v` for `v < 2^128`. -/
def bitLenAux : Nat → Nat → Nat
  | 0, _ => 0
  | fuel + 1, v => if v = 0 then 0 else bitLenAux fuel (v / 2) + 1

/-- Model of `u128::leading_zeros` of `value`, via the fuelled bit length. -/
def u128LeadingZeros (value : Nat) : Nat := 128 - bitLenAux 128 value

/-- Model of `LogicVector::from_int_value` from `src/logicbit/logicvector/mod.rs`:
`None` unless the width is in `[1,128]` and at least the bit length of
`value`; otherwise the strong-one mask is `value` and the strong-zero mask
its in-width complement. -/
def fromIntValue (value width : Nat) : Option LogicVector :=
  let zeros := u128LeadingZeros value
  if assertWidth width ∧ width ≥ 128 - zeros then
    some ⟨(Masks.zeroed.put i1 value).put i0 (u128Not value &&& maskFromWidth width),
          width⟩
  else none

/-- Model of `LogicVector::with_width`: all bits `Ieee1164::_U` (the default). -/
def withWidth (width : Nat) : Option LogicVector := fromIeeeValue iU width

/-- Model of `LogicVector::has_ieee1164(value)`: some bit has state `value`. -/
def LogicVector.hasIeee (v : LogicVector) (value : Ieee1164) : Bool :=
  v.masks.get value != 0

/-- Model of `LogicVector::has_UXZ` from `src/logicbit/logicvector/mod.rs`: note the
source checks `U, X, W, Z, D` only — weak zero (`L`) and weak one (`H`) do
not count. -/
def LogicVector.hasUXZ (v : LogicVector) : Bool :=
  v.hasIeee iU || v.hasIeee iX || v.hasIeee iW || v.hasIeee iZ || v.hasIeee iD

/-- Model of `LogicVector::as_u128` from `src/logicbit/logicvector/mod.rs`: `None`
when `has_UXZ`, else the strong-one mask. -/
def LogicVector.asU128 (v : LogicVector) : Option Nat :=
  if v.hasUXZ then none else some (v.masks.get i1)

/-- Model of `LogicVector::set(idx, value)` from `src/logicbit/logicvector/mod.rs`:
the `assert!(idx < 128)` is modelled as `Option`; an in-assert but
out-of-width index leaves the vector unchanged. -/
def LogicVector.set (v : LogicVector) (idx : Nat) (value : Ieee1164) :
    Option LogicVector :=
  if idx < 128 then
    some (if idx < v.width then { v with masks := v.masks.setBit idx value } else v)
  else none

/-- Model of `fn and` on `LogicVector` from `src/logicbit/logicvector/mod.rs`: `None`
on a width mismatch; when either side `has_UXZ` the source body is an
`unimplemented` panic (modelled as `none`); otherwise only the strong-one
and strong-zero masks of the result are populated, each as the bitwise AND
of the operands' corresponding masks. -/
def andLV (lhs rhs : LogicVector) : Option LogicVector :=
  if lhs.width ≠ rhs.width then none
  else if lhs.hasUXZ || rhs.hasUXZ then none
  else
    some ⟨(Masks.zeroed.put i1 (lhs.masks.get i1 &&& rhs.masks.get i1)).put
            i0 (lhs.masks.get i0 &&& rhs.masks.get i0),
          lhs.width⟩

/-- A `PortConnector<Ieee1164, _>` from `src/port/portconnector.rs` together
with the port cell it weakly references: `alive` models whether the weak
reference still upgrades, `val` the referenced cell's current value. -/
structure Conn where
  alive : Bool
  val : Ieee1164
deriving DecidableEq

/-- Model of `PortConnector::value`: `None` when the backing port has been dropped. -/
def Conn.value (c : Conn) : Option Ieee1164 :=
  if c.alive then some c.val else none

/-- Model of `PortConnector::set_value`: a no-op when the backing port has been
dropped. -/
def Conn.setValue (c : Conn) (x : Ieee1164) : Conn :=
  if c.alive then { c with val := x } else c

/-- The state of a `Signal<Ieee1164>` from `src/signal.rs`: its input and
output connector lists. -/
structure SignalState where
  inputs : List Conn
  outputs : List Conn
deriving DecidableEq

/-- Model of `Signal::remove_expired_portconnector`: retain only the connectors whose
backing port is still alive (`PortConnector::is_valid`). -/
def pruneExpired (s : SignalState) : SignalState :=
  ⟨s.inputs.filter (fun c => c.alive), s.outputs.filter (fun c => c.alive)⟩

/-- The first-valid-input loop of `Signal::update`: advances the iterator to
the first connector with `is_valid`, returning it with the remaining
iterator. -/
def firstValid : List Conn → Option (Conn × List Conn)
  | [] => none
  | c :: rest => if c.alive then some (c, rest) else firstValid rest

/-- One step of the input fold in `Signal::update`:
`iter.filter_map(|pc| pc.value()).fold(seed, |e, s| e.resolve(&s))` — a
connector whose port is gone yields no value and is skipped. -/
def resolveStep (e : Ieee1164) (c : Conn) : Ieee1164 :=
  match c.value with
  | some v => resolve e v
  | none => e

/-- Model of `Signal::update` for `T = Ieee1164` from `src/signal.rs`: prune expired
connectors; if some live input exists, fold the remaining live input values
through `resolve` seeded with the first live input's value and write the
result to every live output.

Modelled from the spec: the `bool` changed report required by the
`Updateable` trait (`src/lib.rs`) and consumed by `Circuit::tick` is absent
from the `Signal` impl in `src/signal.rs` (an older snapshot returning
unit); per the spec it reports whether the resolution result differs from
at least one output's prior value, and `false` when there is no live
input (no output is written then). -/
def signalUpdate (s : SignalState) : SignalState × Bool :=
  let s' := pruneExpired s
  match firstValid s'.inputs with
  | none => (s', false)
  | some (first, rest) =>
    let r := rest.foldl resolveStep first.val
    let changed := s'.outputs.any fun c => c.val != r
    (⟨s'.inputs, s'.outputs.map (fun c => c.setValue r)⟩, changed)

/-- Model of `ConnectionError` from `src/signal.rs`. -/
inductive ConnectionError where
  | AlreadyConnected
  | MismatchWidth (a b : Nat)
deriving DecidableEq

/-- A port direction (`src/port/portdirection.rs`), with `IS_INPUT`,
`IS_OUTPUT` and `IS_INOUT` as in the source. -/
inductive DirM where
  | input
  | output
  | inout
deriving DecidableEq

/-- Model of `D::IS_OUTPUT || D::IS_INOUT`, the guard adding a connector to the
signal's input list in `Signal::connect`. -/
def DirM.readableBySignal : DirM → Bool
  | DirM.output => true
  | DirM.inout => true
  | DirM.input => false

/-- Model of `D::IS_INPUT || D::IS_INOUT`, the guard adding a connector to the
signal's output list in `Signal::connect`. -/
def DirM.writableBySignal : DirM → Bool
  | DirM.input => true
  | DirM.inout => true
  | DirM.output => false

/-- A `Port` from `src/port/pport.rs`, reduced to its signal back-link:
`backLink` models whether `inner.signal.upgrade()` succeeds
(`Port::is_connected`). `Port::new` initialises it dead (`Weak::new()`), and
nothing in the source ever stores a live link: the body of `Port::_connect`
is commented out (`FIXME`). -/
structure PortM where
  backLink : Bool
deriving DecidableEq

/-- The lists of port identities held by a `Signal` for the connect
machinery (connector equality is backing-port identity, so ports are
modelled by `Nat` ids). -/
structure SignalConn where
  inputIds : List Nat
  outputIds : List Nat
deriving DecidableEq

/-- Model of `Signal::connect` from `src/signal.rs`: fails with `AlreadyConnected`
when the port's back-link is live; otherwise appends the port's connector to
the input list (when the direction has `IS_OUTPUT || IS_INOUT`) and to the
output list (when `IS_INPUT || IS_INOUT`), each deduplicated; the port is
returned unchanged because `Port::_connect` is a no-op in the source. -/
def connect (s : SignalConn) (p : PortM) (pid : Nat) (d : DirM) :
    Except ConnectionError (SignalConn × PortM) :=
  if p.backLink then Except.error ConnectionError.AlreadyConnected
  else
    let s1 := if d.readableBySignal && ! s.inputIds.contains pid then
        { s with inputIds := s.inputIds ++ [pid] } else s
    let s2 := if d.writableBySignal && ! s1.outputIds.contains pid then
        { s1 with outputIds := s1.outputIds ++ [pid] } else s1
    Except.ok (s2, p)

/-- An `Updateable` component registered in a `Circuit` (`src/circuit.rs`):
a boxed trait object whose `update` mutates shared circuit state and reports
whether anything changed, embedded as a function on an explicit world
state `w`. -/
structure UpdaterW (w : Type) where
  run : w → w × Bool

/-- Model of `Circuit::tick` from `src/circuit.rs`:
`self.updater.iter_mut().fold(false, |acc, u| acc | u.update())`, with the
world state threaded explicitly through the sequential pass. -/
def tick {w : Type} (us : List (UpdaterW w)) (start : w) : w × Bool :=
  us.foldl (fun acc u => let p := u.run acc.1; (p.1, acc.2 || p.2)) (start, false)

/-- Sequential composition of the updaters in registration order, each
applied exactly once. -/
def runAll {w : Type} (us : List (UpdaterW w)) (start : w) : w :=
  us.foldl (fun st u => (u.run st).1) start

/-- The logical OR of every component's changed report, each component
invoked exactly once on the state it observes in registration order. -/
def anyChanged {w : Type} : List (UpdaterW w) → w → Bool
  | [], _ => false
  | u :: rest, st => (u.run st).2 || anyChanged rest (u.run st).1

/-! Theorems settling the specification claims. -/

/-- Claim C1: for all values `a, b` of `Ieee1164`, `a.resolve(b) ==
b.resolve(a)` — the resolution operator on the 9-valued scalar type is
commutative over all 81 input pairs. -/
theorem resolve_comm : ∀ a b : Ieee1164, resolve a b = resolve b a := by decide

/-- Claim C9: for all values `a, b, c` of `Ieee1164`,
`(a.resolve(b)).resolve(c) == a.resolve(b.resolve(c))` — the scalar
resolution operator is associative over all 729 input triples, so the
left-to-right fold in `Signal::update` is independent of driver grouping. -/
theorem resolve_assoc :
    ∀ a b c : Ieee1164, resolve (resolve a b) c = resolve a (resolve b c) := by
  decide

/-- Claim C4, counterexample: the claim `a.resolve(HighImpedance) == a` for
every `a` fails at `a = DontCare`, where the resolution table yields
`Strong(Unknown)` instead. -/
theorem resolve_highZ_counterexample : resolve iD iZ ≠ iD := by decide

/-- Claim C4, amended: for every `a` of `Ieee1164` other than `DontCare`,
`a.resolve(HighImpedance) == a`; resolving `DontCare` with high-impedance
yields `Strong(Unknown)`. -/
theorem resolve_highZ_id (a : Ieee1164) (h : a ≠ iD) : resolve a iZ = a := by
  revert h; revert a; decide

/-- Witness for `resolve_highZ_id` at `a = Strong(One)`. -/
theorem resolve_highZ_id_witness : i1 ≠ iD ∧ resolve i1 iZ = i1 :=
  ⟨by decide, resolve_highZ_id i1 (by decide)⟩

/-- Claim C2, failing input: `LogicVector`'s bitwise AND of the reachable
width-1 vectors `[1]` (`from_int_value(1, 1)`) and `[0]`
(`from_int_value(0, 1)`) produces a vector in which no bitmask has bit 0 set
(`Masks::get(0)` finds no mask, and the code's own `sanity_check` reports
`NoOne(0)`), violating the exactly-one-mask-per-in-range-bit invariant the
claim states for every reachable vector. -/
theorem and_breaks_mask_invariant :
    (((fromIntValue 1 1).bind fun a => (fromIntValue 0 1).bind fun b =>
        andLV a b).map fun r =>
          (r.masks.sanityCheck r.width, r.masks.getBit 0, r.width))
      = some (Except.error (SanityChecked.NoOne 0), none, 1) := by decide

/-- Claim C6, failing input: the reachable vector of a single `Weak(One)`
bit (`from_ieee_value(Ieee1164::_H, 1)`) has its only bit resolvable to 1,
yet `as_u128` returns `Some(0)` (it returns the strong-one mask, ignoring
weak ones) where the claim requires bit 0 of the value to be 1. -/
theorem asU128_ignores_weak_one :
    ((fromIeeeValue iH 1).map fun v => (v.asU128, v.masks.getBit 0))
      = some (some 0, some iH) := by decide

/-- Helper for claim C5: the fuelled bit length measures powers of two,
i.e. `bitLenAux fuel v ≤ w` iff `v < 2 ^ w`, provided the fuel covers `v`. -/
theorem bitLenAux_le_iff (fuel : Nat) :
    ∀ v w : Nat, v < 2 ^ fuel → (bitLenAux fuel v ≤ w ↔ v < 2 ^ w) := by
  induction fuel with
  | zero =>
    intro v w hv
    have hv0 : v = 0 := Nat.lt_one_iff.mp hv
    subst hv0
    simp [bitLenAux, Nat.pos_pow_of_pos, pow_pos]
  | succ fuel ih =>
    intro v w hv
    by_cases h0 : v = 0
    · subst h0
      simp [bitLenAux, pow_pos]
    · simp only [bitLenAux, if_neg h0]
      cases w with
      | zero =>
        simp only [pow_zero, Nat.lt_one_iff]
        exact ⟨fun h => absurd h (by omega), fun h => absurd h h0⟩
      | succ w =>
        have hv2 : v / 2 < 2 ^ fuel := by
          rw [Nat.div_lt_iff_lt_mul (by norm_num)]
          calc v < 2 ^ (fuel + 1) := hv
            _ = 2 ^ fuel * 2 := by rw [pow_succ]
        rw [Nat.succ_le_succ_iff, ih (v / 2) w hv2,
          Nat.div_lt_iff_lt_mul (by norm_num), ← pow_succ]

/-- Claim C5: for every `width ∈ [1, 128]` and every `value < 2 ^ width`,
`from_int_value(value, width)` returns some vector, and `as_u128()` on that
vector returns `Some(value)`. -/
theorem fromIntValue_roundTrip (width value : Nat) (h1 : 1 ≤ width)
    (h2 : width ≤ 128) (h3 : value < 2 ^ width) :
    ∃ v, fromIntValue value width = some v ∧ v.asU128 = some value := by
  have hv128 : value < 2 ^ 128 :=
    lt_of_lt_of_le h3 (Nat.pow_le_pow_right (by norm_num) h2)
  have hb : bitLenAux 128 value ≤ width :=
    (bitLenAux_le_iff 128 value width hv128).mpr h3
  have hb128 : bitLenAux 128 value ≤ 128 :=
    (bitLenAux_le_iff 128 value 128 hv128).mpr hv128
  have hcond : assertWidth width ∧ width ≥ 128 - u128LeadingZeros value := by
    refine ⟨⟨by omega, h2⟩, ?_⟩
    unfold u128LeadingZeros
    omega
  refine ⟨⟨(Masks.zeroed.put i1 value).put i0
      (u128Not value &&& maskFromWidth width), width⟩, ?_, ?_⟩
  · unfold fromIntValue
    rw [if_pos hcond]
  · simp [LogicVector.asU128, LogicVector.hasUXZ, LogicVector.hasIeee,
      Masks.put, Masks.get, Masks.zeroed, i0, i1, iU, iX, iW, iZ, iD]

/-- Witness for `fromIntValue_roundTrip` at `width = 8`, `value = 42`. -/
theorem fromIntValue_roundTrip_witness :
    (1 ≤ 8 ∧ 8 ≤ 128 ∧ 42 < 2 ^ 8) ∧
      ∃ v, fromIntValue 42 8 = some v ∧ v.asU128 = some 42 :=
  ⟨by decide, fromIntValue_roundTrip 8 42 (by decide) (by decide) (by decide)⟩

/-- Claim C10: for every `LogicVector` `v`, every index with
`v.width() <= idx < 128` and every `Ieee1164` value, `v.set(idx, value)`
leaves `v` unchanged — an out-of-range set is a silent no-op that neither
panics (the `idx < 128` assertion passes) nor reports an error. -/
theorem set_out_of_range (v : LogicVector) (idx : Nat) (x : Ieee1164)
    (h1 : v.width ≤ idx) (h2 : idx < 128) : v.set idx x = some v := by
  unfold LogicVector.set
  rw [if_pos h2, if_neg (by omega)]

/-- Witness for `set_out_of_range` on a width-1 vector at index 5. -/
theorem set_out_of_range_witness :
    LogicVector.set ⟨Masks.zeroed, 1⟩ 5 iX = some ⟨Masks.zeroed, 1⟩ :=
  set_out_of_range ⟨Masks.zeroed, 1⟩ 5 iX (by decide) (by decide)

/-- Claim C7, failing input: connecting a fresh port (dead back-link, as
`Port::new` creates it) to an empty signal succeeds and hands the port back
with its back-link still dead (`Port::_connect` is a no-op in the source),
so a second `connect` of the very same port also returns `Ok` — deduplicated
into the same one-element connector lists — instead of failing with
`AlreadyConnected` as the claim requires. -/
theorem connect_twice_ok :
    connect ⟨[], []⟩ ⟨false⟩ 0 DirM.inout
        = Except.ok (⟨[0], [0]⟩, ⟨false⟩) ∧
      connect ⟨[0], [0]⟩ ⟨false⟩ 0 DirM.inout
        = Except.ok (⟨[0], [0]⟩, ⟨false⟩) := by decide

/-- Helper for claim C3: over a list of live connectors the guarded fold of
`Signal::update` is the plain left fold of `resolve` over their values. -/
theorem foldl_resolveStep_of_alive (l : List Conn) :
    ∀ a : Ieee1164, (∀ c ∈ l, c.alive = true) →
      l.foldl resolveStep a = (l.map Conn.val).foldl resolve a := by
  induction l with
  | nil => intro a _; rfl
  | cons c t ih =>
    intro a h
    have hc : c.alive = true := h c (by simp)
    simp only [List.foldl_cons, List.map_cons]
    rw [show resolveStep a c = resolve a c.val by
      simp [resolveStep, Conn.value, hc]]
    exact ih _ fun d hd => h d (by simp [hd])

/-- Helper for claim C3: writing `r` through every live connector makes
every referenced value `r`. -/
theorem setValue_map_of_alive (l : List Conn) (r : Ieee1164)
    (h : ∀ c ∈ l, c.alive = true) :
    (l.map fun c => c.setValue r).map Conn.val = l.map fun _ => r := by
  induction l with
  | nil => rfl
  | cons c t ih =>
    have hc : c.alive = true := h c (by simp)
    simp only [List.map_cons, List.cons.injEq]
    exact ⟨by simp [Conn.setValue, hc], ih fun d hd => h d (by simp [hd])⟩

/-- Claim C3: for every `Signal` whose input-connector list, after pruning
expired connectors, contains a live connector, `update()` folds all live
input values left-to-right through `Resolve` seeded with the first live
input's value, writes the resolved result to every live output connector,
and reports whether the resolution result differs from at least one
output's prior value. (The live input values after pruning are `v :: vs`;
the resolved result is `vs.foldl resolve v`.) -/
theorem signalUpdate_spec (s : SignalState) (v : Ieee1164)
    (vs : List Ieee1164)
    (h : (pruneExpired s).inputs.map Conn.val = v :: vs) :
    (signalUpdate s).1.inputs = (pruneExpired s).inputs ∧
      (signalUpdate s).1.outputs.map Conn.val
        = (pruneExpired s).outputs.map (fun _ => vs.foldl resolve v) ∧
      ((signalUpdate s).2 = true ↔
        ∃ c ∈ (pruneExpired s).outputs, c.val ≠ vs.foldl resolve v) := by
  have hAliveIn : ∀ c ∈ (pruneExpired s).inputs, c.alive = true := by
    intro c hc
    exact (List.mem_filter.mp hc).2
  have hAliveOut : ∀ c ∈ (pruneExpired s).outputs, c.alive = true := by
    intro c hc
    exact (List.mem_filter.mp hc).2
  obtain ⟨c0, rest, hcons⟩ :
      ∃ c0 rest, (pruneExpired s).inputs = c0 :: rest := by
    cases hl : (pruneExpired s).inputs with
    | nil => rw [hl] at h; simp at h
    | cons a t => exact ⟨a, t, rfl⟩
  rw [hcons] at h
  simp only [List.map_cons, List.cons.injEq] at h
  obtain ⟨hval, hvals⟩ := h
  have hc0 : c0.alive = true := hAliveIn c0 (by rw [hcons]; simp)
  have hrest : ∀ c ∈ rest, c.alive = true := by
    intro c hc
    exact hAliveIn c (by rw [hcons]; simp [hc])
  have hfirst : firstValid (pruneExpired s).inputs = some (c0, rest) := by
    rw [hcons]
    simp [firstValid, hc0]
  have hfold : rest.foldl resolveStep c0.val = vs.foldl resolve v := by
    rw [foldl_resolveStep_of_alive rest c0.val hrest, hvals, hval]
  simp only [signalUpdate, hfirst, hfold]
  refine ⟨trivial, ?_, ?_⟩
  · exact setValue_map_of_alive _ _ hAliveOut
  · simp [List.any_eq_true, bne_iff_ne]

/-- Witness for `signalUpdate_spec`: a signal with live inputs driving
`Strong(One)` and `HighImpedance`, a dead input, and one live output whose
prior value is `Strong(Zero)`. -/
theorem signalUpdate_spec_witness :
    (signalUpdate ⟨[⟨true, i1⟩, ⟨false, i0⟩, ⟨true, iZ⟩], [⟨true, i0⟩]⟩).1.inputs
        = (pruneExpired ⟨[⟨true, i1⟩, ⟨false, i0⟩, ⟨true, iZ⟩], [⟨true, i0⟩]⟩).inputs ∧
      (signalUpdate ⟨[⟨true, i1⟩, ⟨false, i0⟩, ⟨true, iZ⟩], [⟨true, i0⟩]⟩).1.outputs.map Conn.val
        = (pruneExpired ⟨[⟨true, i1⟩, ⟨false, i0⟩, ⟨true, iZ⟩], [⟨true, i0⟩]⟩).outputs.map
            (fun _ => List.foldl resolve i1 [iZ]) ∧
      ((signalUpdate ⟨[⟨true, i1⟩, ⟨false, i0⟩, ⟨true, iZ⟩], [⟨true, i0⟩]⟩).2 = true ↔
        ∃ c ∈ (pruneExpired ⟨[⟨true, i1⟩, ⟨false, i0⟩, ⟨true, iZ⟩], [⟨true, i0⟩]⟩).outputs,
          c.val ≠ List.foldl resolve i1 [iZ]) :=
  signalUpdate_spec ⟨[⟨true, i1⟩, ⟨false, i0⟩, ⟨true, iZ⟩], [⟨true, i0⟩]⟩ i1 [iZ]
    (by decide)

/-- Helper for claim C8: unrolling the `tick` fold with an arbitrary
accumulated flag. -/
theorem tick_foldl (w : Type) (us : List (UpdaterW w)) :
    ∀ (st : w) (b : Bool),
      us.foldl (fun acc u => let p := u.run acc.1; (p.1, acc.2 || p.2)) (st, b)
        = (runAll us st, b || anyChanged us st) := by
  induction us with
  | nil =>
    intro st b
    simp [runAll, anyChanged]
  | cons u rest ih =>
    intro st b
    simp only [List.foldl_cons, runAll, anyChanged, ih, Bool.or_assoc]

/-- Claim C8: `Circuit::tick` invokes the update of every registered
component exactly once, in registration order — the final world state is
the in-order sequential composition `runAll` of the single updates — and
returns the logical OR (`anyChanged`) of all components' changed reports. -/
theorem tick_spec (w : Type) (us : List (UpdaterW w)) (start : w) :
    tick us start = (runAll us start, anyChanged us start) := by
  unfold tick
  rw [tick_foldl]
  simp

end Logical
